import Mathlib

/-!
# WebConvert — verification of the video-conversion pipeline

Shallow embedding of the conversion pipeline of this repository
(`video_converter.py` and the background-task slice of `bot.py`), with
theorems settling the specification's claims about it.

Conventions:
* Python rationals-from-division are modelled by `ℚ` (exact arithmetic);
  `int()` truncation is `pyInt`, integer floor division `//` is `Int.fdiv`.
* Python substring tests (`pat in s`) are modelled by list infix on the
  characters of the strings.
* Fallible code is modelled with `Option`/`Except`; a Python exception that
  escapes a modelled scope is an explicit `none`/`error` value.
* External effects (the ffmpeg process, the filesystem, telegram delivery)
  enter as explicit parameters describing their observable outcomes.
-/

/-- Python `int()` applied to a nonnegative-or-negative rational: truncation
toward zero. All uses below are on nonnegative values, where it agrees with
`Int.floor`. -/
def pyInt (q : ℚ) : ℤ := if 0 ≤ q then ⌊q⌋ else -⌊-q⌋

/-- Python `pat in s` substring containment, on the character lists. -/
def containsSub (s pat : String) : Bool := decide (pat.toList <:+: s.toList)

/-- Scale/pad geometry computed by `_convert_video_sync`
(video_converter.py lines 308–325). -/
structure Geometry where
  new_width : ℤ
  new_height : ℤ
  x_offset : ℤ
  y_offset : ℤ
deriving DecidableEq, Repr

/-- The geometry computation of `_convert_video_sync`, lines 308–325.
`target_width`/`target_height` are reassigned to 1920/1080 inside the
function (lines 305–306), so the target canvas is fixed.

Python computes `input_aspect = width / height`, which raises
`ZeroDivisionError` when `height == 0`; that exit is the `none` result. -/
def computeGeometry (width height : ℤ) : Option Geometry :=
  if height = 0 then none
  else
    let input_aspect : ℚ := (width : ℚ) / (height : ℚ)
    let target_aspect : ℚ := (1920 : ℚ) / (1080 : ℚ)
    if target_aspect < input_aspect then
      let new_width : ℤ := 1920
      let new_height : ℤ := pyInt ((1920 : ℚ) / input_aspect)
      some ⟨new_width, new_height, 0, Int.fdiv (1080 - new_height) 2⟩
    else
      let new_height : ℤ := 1080
      let new_width : ℤ := pyInt ((1080 : ℚ) * input_aspect)
      some ⟨new_width, new_height, Int.fdiv (1920 - new_width) 2, 0⟩

/-- The probed video stream's dimension fields as the code reads them:
each may be absent from the probe dictionary. -/
structure VideoInfo where
  width : Option ℤ
  height : Option ℤ
deriving DecidableEq, Repr

/-- Lines 300–301: `width = int(video_info.get('width', 1920))`,
`height = int(video_info.get('height', 1080))` — the defaults apply only
when the field is absent — followed by the geometry computation. -/
def geometryFromProbe (vi : VideoInfo) : Option Geometry :=
  computeGeometry (vi.width.getD 1920) (vi.height.getD 1080)

/-- A video filter stage passed to ffmpeg. -/
inductive VFilter where
  | scale (w h : ℤ)
  | pad (w h x y : ℤ)
deriving DecidableEq, Repr

/-- Filter-chain construction, lines 336–352: when the scaled size differs
from the target, scale then pad; otherwise ("Просто масштабируем видео")
a single scale to the target size. -/
def buildVideoFilters (g : Geometry) : List VFilter :=
  if g.new_width ≠ 1920 ∨ g.new_height ≠ 1080 then
    [VFilter.scale g.new_width g.new_height,
     VFilter.pad 1920 1080 g.x_offset g.y_offset]
  else
    [VFilter.scale 1920 1080]

theorem pyInt_eq_floor {q : ℚ} (hq : 0 ≤ q) : pyInt q = ⌊q⌋ := if_pos hq

/-- Python `//` by 2 on an integer is the floored halving of the claim. -/
theorem fdiv_two_eq_floor (x : ℤ) : Int.fdiv x 2 = ⌊(x : ℚ) / 2⌋ := by
  rw [Int.fdiv_eq_ediv x (by norm_num)]
  rw [show ((2 : ℚ)) = ((2 : ℕ) : ℚ) by norm_num, Rat.floor_intCast_div_natCast]
  norm_num

/-- Unfolding of `computeGeometry` on the relatively-wider branch. -/
theorem computeGeometry_wide {w h : ℤ} (hh : h ≠ 0)
    (hcmp : (1920 : ℚ) / 1080 < (w : ℚ) / (h : ℚ)) :
    computeGeometry w h =
      some ⟨1920, pyInt ((1920 : ℚ) / ((w : ℚ) / (h : ℚ))), 0,
        Int.fdiv (1080 - pyInt ((1920 : ℚ) / ((w : ℚ) / (h : ℚ)))) 2⟩ := by
  simp only [computeGeometry]
  rw [if_neg hh, if_pos hcmp]

/-- Unfolding of `computeGeometry` on the relatively-taller branch. -/
theorem computeGeometry_tall {w h : ℤ} (hh : h ≠ 0)
    (hcmp : ¬ ((1920 : ℚ) / 1080 < (w : ℚ) / (h : ℚ))) :
    computeGeometry w h =
      some ⟨pyInt ((1080 : ℚ) * ((w : ℚ) / (h : ℚ))), 1080,
        Int.fdiv (1920 - pyInt ((1080 : ℚ) * ((w : ℚ) / (h : ℚ)))) 2, 0⟩ := by
  simp only [computeGeometry]
  rw [if_neg hh, if_neg hcmp]

/-- The no-op geometry produced by an exact aspect-ratio match. -/
theorem computeGeometry_target_noop : computeGeometry 1920 1080 = some ⟨1920, 1080, 0, 0⟩ := by
  rw [computeGeometry_tall (by norm_num) (by norm_num)]
  rw [pyInt_eq_floor (by norm_num)]
  norm_num

/-- **C3**: for every positive source dimension pair and the fixed 1920×1080
target, the planner fixes the tight axis, floors the derived axis from the
source aspect ratio, centers with a floored-half padding offset and zero on
the tight axis, stays inside the target canvas with nonnegative offsets, and
maps source 3840×1600 to scaled 1920×800 with pad (0, 140). -/
theorem geometry_plan_correct (w h : ℤ) (hw : 0 < w) (hh : 0 < h) :
    (∃ g : Geometry, computeGeometry w h = some g ∧
      ((1920 : ℚ) / 1080 < (w : ℚ) / (h : ℚ) →
        g.new_width = 1920 ∧ g.new_height = ⌊(1920 : ℚ) / ((w : ℚ) / (h : ℚ))⌋ ∧
        g.y_offset = ⌊((1080 - g.new_height : ℤ) : ℚ) / 2⌋ ∧ g.x_offset = 0) ∧
      (¬ ((1920 : ℚ) / 1080 < (w : ℚ) / (h : ℚ)) →
        g.new_height = 1080 ∧ g.new_width = ⌊(1080 : ℚ) * ((w : ℚ) / (h : ℚ))⌋ ∧
        g.x_offset = ⌊((1920 - g.new_width : ℤ) : ℚ) / 2⌋ ∧ g.y_offset = 0) ∧
      g.new_width ≤ 1920 ∧ g.new_height ≤ 1080 ∧ 0 ≤ g.x_offset ∧ 0 ≤ g.y_offset) ∧
    computeGeometry 3840 1600 = some ⟨1920, 800, 0, 140⟩ := by
  constructor
  · have hq : (0 : ℚ) < (h : ℚ) := by exact_mod_cast hh
    have hwq : (0 : ℚ) < (w : ℚ) := by exact_mod_cast hw
    have ha : (0 : ℚ) < (w : ℚ) / (h : ℚ) := div_pos hwq hq
    by_cases hcmp : (1920 : ℚ) / 1080 < (w : ℚ) / (h : ℚ)
    · have hfl : pyInt ((1920 : ℚ) / ((w : ℚ) / (h : ℚ))) = ⌊(1920 : ℚ) / ((w : ℚ) / (h : ℚ))⌋ :=
        pyInt_eq_floor (div_nonneg (by norm_num) ha.le)
      have hub : pyInt ((1920 : ℚ) / ((w : ℚ) / (h : ℚ))) ≤ 1080 := by
        rw [hfl]
        have h1 : (1920 : ℚ) / ((w : ℚ) / (h : ℚ)) ≤ 1080 := by
          rw [div_le_iff₀ ha]
          nlinarith [hcmp]
        calc ⌊(1920 : ℚ) / ((w : ℚ) / (h : ℚ))⌋ ≤ ⌊(1080 : ℚ)⌋ := Int.floor_le_floor h1
          _ = 1080 := by norm_num
      refine ⟨⟨1920, pyInt ((1920 : ℚ) / ((w : ℚ) / (h : ℚ))), 0,
          Int.fdiv (1080 - pyInt ((1920 : ℚ) / ((w : ℚ) / (h : ℚ)))) 2⟩,
        computeGeometry_wide hh.ne' hcmp,
        fun _ => ⟨rfl, hfl, fdiv_two_eq_floor _, rfl⟩,
        fun hcon => (hcon hcmp).elim,
        le_refl _, hub, le_refl 0, Int.fdiv_nonneg (by omega) (by norm_num)⟩
    · have hmn : (0 : ℚ) ≤ (1080 : ℚ) * ((w : ℚ) / (h : ℚ)) :=
        mul_nonneg (by norm_num) ha.le
      have hfl : pyInt ((1080 : ℚ) * ((w : ℚ) / (h : ℚ))) = ⌊(1080 : ℚ) * ((w : ℚ) / (h : ℚ))⌋ :=
        pyInt_eq_floor hmn
      have hub : pyInt ((1080 : ℚ) * ((w : ℚ) / (h : ℚ))) ≤ 1920 := by
        rw [hfl]
        have hle : (w : ℚ) / (h : ℚ) ≤ 1920 / 1080 := not_lt.1 hcmp
        have h1 : (1080 : ℚ) * ((w : ℚ) / (h : ℚ)) ≤ 1920 := by nlinarith [hle]
        calc ⌊(1080 : ℚ) * ((w : ℚ) / (h : ℚ))⌋ ≤ ⌊(1920 : ℚ)⌋ := Int.floor_le_floor h1
          _ = 1920 := by norm_num
      refine ⟨⟨pyInt ((1080 : ℚ) * ((w : ℚ) / (h : ℚ))), 1080,
          Int.fdiv (1920 - pyInt ((1080 : ℚ) * ((w : ℚ) / (h : ℚ)))) 2, 0⟩,
        computeGeometry_tall hh.ne' hcmp,
        fun hcon => (hcmp hcon).elim,
        fun _ => ⟨rfl, hfl, fdiv_two_eq_floor _, rfl⟩,
        hub, le_refl _, Int.fdiv_nonneg (by omega) (by norm_num), le_refl 0⟩
  · rw [computeGeometry_wide (by norm_num) (by norm_num)]
    rw [pyInt_eq_floor (by norm_num)]
    norm_num
    decide

/-- Witness for the C3 theorem at source 3840×1600. -/
theorem geometry_plan_correct_witness :
    (0 < (3840 : ℤ)) ∧ (0 < (1600 : ℤ)) ∧
      computeGeometry 3840 1600 = some ⟨1920, 800, 0, 140⟩ :=
  ⟨by decide, by decide, (geometry_plan_correct 3840 1600 (by decide) (by decide)).2⟩

/-- **C5** counterexample: at the no-op geometry (scaled size equal to the
target) the emitted filter chain is not empty — a scale filter to the target
size is still present, refuting "no scaling filter at all". -/
theorem noop_geometry_scale_counterexample :
    buildVideoFilters ⟨1920, 1080, 0, 0⟩ ≠ [] ∧
      VFilter.scale 1920 1080 ∈ buildVideoFilters ⟨1920, 1080, 0, 0⟩ := by
  constructor <;> simp [buildVideoFilters]

/-- **C5** (amended): when the computed scaled dimensions equal the target
dimensions, the scale-then-pad stage is skipped — no pad filter is emitted —
but the command still contains a single scale filter to the target size. -/
theorem noop_geometry_no_pad (g : Geometry)
    (hw : g.new_width = 1920) (hh : g.new_height = 1080) :
    buildVideoFilters g = [VFilter.scale 1920 1080] := by
  simp [buildVideoFilters, hw, hh]

/-- Witness for the C5 amended theorem at the no-op geometry. -/
theorem noop_geometry_no_pad_witness :
    buildVideoFilters ⟨1920, 1080, 0, 0⟩ = [VFilter.scale 1920 1080] :=
  noop_geometry_no_pad ⟨1920, 1080, 0, 0⟩ rfl rfl

/-- **C6** counterexample: a probe that reports a present zero height does not
default to the target dimensions — the aspect-ratio computation divides by
zero (a `ZeroDivisionError` exit, modelled as `none`), so conversion does not
proceed with a no-op geometry. -/
theorem degenerate_probe_counterexample :
    geometryFromProbe ⟨some 1920, some 0⟩ ≠ some ⟨1920, 1080, 0, 0⟩ ∧
      geometryFromProbe ⟨some 1920, some 0⟩ = none := by
  constructor <;> simp [geometryFromProbe, computeGeometry]

/-- **C6** (amended): the 1920/1080 defaults apply only when a dimension field
is absent from the probe data — both fields missing yields the no-op geometry
with no division error; a reported zero height (even alongside a valid width)
divides by zero and the geometry computation fails; a reported zero width with
a missing height yields a degenerate geometry with scaled width 0, not the
no-op default. -/
theorem degenerate_probe_behavior :
    (∀ vi : VideoInfo, vi.width = none → vi.height = none →
        geometryFromProbe vi = some ⟨1920, 1080, 0, 0⟩) ∧
    (∀ wopt : Option ℤ, geometryFromProbe ⟨wopt, some 0⟩ = none) ∧
    geometryFromProbe ⟨some 0, none⟩ = some ⟨0, 1080, 960, 0⟩ := by
  refine ⟨?_, ?_, ?_⟩
  · rintro ⟨wo, ho⟩ hwo hho
    simp only at hwo hho
    subst hwo; subst hho
    show computeGeometry 1920 1080 = some ⟨1920, 1080, 0, 0⟩
    exact computeGeometry_target_noop
  · intro wopt
    simp [geometryFromProbe, computeGeometry]
  · show computeGeometry 0 1080 = some ⟨0, 1080, 960, 0⟩
    rw [computeGeometry_tall (by norm_num) (by norm_num)]
    rw [pyInt_eq_floor (by norm_num)]
    norm_num
    decide

/-- Witness for the C6 amended theorem: both fields missing, and a reported
zero height with another width. -/
theorem degenerate_probe_behavior_witness :
    geometryFromProbe ⟨none, none⟩ = some ⟨1920, 1080, 0, 0⟩ ∧
      geometryFromProbe ⟨some 1600, some 0⟩ = none :=
  ⟨degenerate_probe_behavior.1 ⟨none, none⟩ rfl rfl,
   degenerate_probe_behavior.2.1 (some 1600)⟩

/-- Result dictionary of `_detect_hardware_acceleration` (lines 78–82):
hardware type, encoder name, availability. -/
structure HWAccel where
  type_ : Option String
  encoder : Option String
  available : Bool
deriving DecidableEq, Repr

/-- Observable outcome of a completed external process: exit code and the
captured diagnostic (stderr) text. -/
structure ProcResult where
  returncode : ℤ
  stderr : String
deriving DecidableEq, Repr

/-- Lines 101–125: acceptance test for the minimal real NVENC encode. `none`
models the test command raising (timeout, missing binary), which is caught
and leaves NVENC unmarked; otherwise NVENC is accepted when the test exits 0
or its stderr lacks the library-load failure message. -/
def nvencTestPasses (t : Option ProcResult) : Bool :=
  match t with
  | none => false
  | some res => res.returncode == 0 || !(containsSub res.stderr "Cannot load libnvidia-encode.so")

/-- `_detect_hardware_acceleration` (video_converter.py lines 67–148), given
the text of the `-encoders` listing and the NVENC test outcome. The second
component records whether the functional test command was attempted, which
the source does exactly when an NVENC encoder is advertised (line 98). The
earlier failure path of the listing query itself (returning the all-`None`
default) is outside this model, which starts from an obtained listing. -/
def _detect_hardware_acceleration (encoders_output : String)
    (nvencTest : Option ProcResult) : HWAccel × Bool :=
  let nvencAdvertised :=
    containsSub encoders_output "h264_nvenc" || containsSub encoders_output "hevc_nvenc"
  if nvencAdvertised && nvencTestPasses nvencTest then
    (⟨some "nvenc", some "h264_nvenc", true⟩, nvencAdvertised)
  else if containsSub encoders_output "h264_vaapi" then
    (⟨some "vaapi", some "h264_vaapi", true⟩, nvencAdvertised)
  else if containsSub encoders_output "h264_videotoolbox" then
    (⟨some "videotoolbox", some "h264_videotoolbox", true⟩, nvencAdvertised)
  else
    (⟨none, none, false⟩, nvencAdvertised)

/-- Codec selection of `_convert_video_sync` (lines 354–387), parameterised by
the `FFMPEG_HWACCEL` setting and the detection result. The value is the
Python variable `video_codec`; `none` models the (unreachable in the source's
own detector output) assignment of a Python `None` encoder name. -/
def selectCodec (hwaccelSetting : String) (force_cpu : Bool) (hw : HWAccel) : Option String :=
  if force_cpu then some "libx264"
  else if hwaccelSetting ≠ "none" then
    if hwaccelSetting = "auto" ∧ hw.available = true then hw.encoder
    else if hwaccelSetting = "nvenc" then
      if hw.type_ = some "nvenc" then some "h264_nvenc" else some "libx264"
    else if hwaccelSetting = "vaapi" ∧ hw.type_ = some "vaapi" then some "h264_vaapi"
    else if hwaccelSetting = "videotoolbox" ∧ hw.type_ = some "videotoolbox" then
      some "h264_videotoolbox"
    else some "libx264"
  else some "libx264"

/-- The fixed NVENC driver-failure substrings (lines 568–573). -/
def nvenc_error_indicators : List String :=
  ["Cannot load libnvidia-encode.so", "Error while opening encoder",
   "The minimum required Nvidia driver", "libnvidia-encode"]

/-- Line 575: `any(indicator in stderr_output for indicator in ...)`. -/
def is_nvenc_error (stderr_output : String) : Bool :=
  nvenc_error_indicators.any (fun ind => containsSub stderr_output ind)

/-- Lines 586–591: the raised error keeps only the last 4000 characters of
the diagnostic text. -/
def stderrTail (s : String) : String :=
  if s.length > 4000 then s.drop (s.length - 4000) else s

/-- Terminal result of one `_convert_video_sync` invocation: normal return,
or the `RuntimeError` raised at line 593 carrying the diagnostic tail. -/
inductive ConvResult where
  | ok
  | ffmpegError (tail : String)
deriving DecidableEq, Repr

/-- The exit/retry logic of `_convert_video_sync` (lines 561–598): `run` maps
an attempt's `force_cpu` flag to the encoding process outcome. On a non-zero
exit whose diagnostics match an NVENC indicator while the selected codec is
`h264_nvenc`, the function re-invokes itself with `force_cpu=True`
(lines 578–584); otherwise a non-zero exit raises with the diagnostic tail. -/
def _convert_video_sync (hwaccelSetting : String) (hw : HWAccel) (run : Bool → ProcResult)
    (force_cpu : Bool) : ConvResult :=
  let res := run force_cpu
  if res.returncode = 0 then ConvResult.ok
  else if h : is_nvenc_error res.stderr = true ∧
      selectCodec hwaccelSetting force_cpu hw = some "h264_nvenc" then
    _convert_video_sync hwaccelSetting hw run true
  else ConvResult.ffmpegError (stderrTail res.stderr)
termination_by (if force_cpu then 0 else 1)
decreasing_by
  rcases h with ⟨-, hcodec⟩
  cases force_cpu
  · decide
  · simp [selectCodec] at hcodec

/-- **C2**: when the first attempt's process exits non-zero, its diagnostics
contain an NVENC driver-failure indicator, and the selected codec was the
hardware `h264_nvenc`, the converter re-invokes itself exactly once with
`force_cpu = True`; on that retry the selected codec is the software
`libx264`, so the hardware branch is unreachable and a second non-zero exit
raises the FFmpeg error instead of retrying again. -/
theorem nvenc_retry_once (hwaccelSetting : String) (hw : HWAccel) (run : Bool → ProcResult)
    (hrc : ¬ (run false).returncode = 0)
    (herr : is_nvenc_error (run false).stderr = true)
    (hcodec : selectCodec hwaccelSetting false hw = some "h264_nvenc") :
    _convert_video_sync hwaccelSetting hw run false = _convert_video_sync hwaccelSetting hw run true ∧
    selectCodec hwaccelSetting true hw = some "libx264" ∧
    ((run true).returncode = 0 → _convert_video_sync hwaccelSetting hw run true = ConvResult.ok) ∧
    (¬ (run true).returncode = 0 →
      _convert_video_sync hwaccelSetting hw run true =
        ConvResult.ffmpegError (stderrTail (run true).stderr)) := by
  have hsw : selectCodec hwaccelSetting true hw = some "libx264" := by simp [selectCodec]
  refine ⟨?_, hsw, ?_, ?_⟩
  · conv_lhs => rw [_convert_video_sync]
    rw [if_neg hrc, dif_pos ⟨herr, hcodec⟩]
  · intro h0
    rw [_convert_video_sync, if_pos h0]
  · intro h0
    rw [_convert_video_sync, if_neg h0, dif_neg]
    rintro ⟨-, hc⟩
    rw [hsw] at hc
    simp at hc

/-- Witness for the C2 theorem: a driver-failure first attempt followed by a
generic second failure ends in the raised FFmpeg error after one retry. -/
theorem nvenc_retry_once_witness :
    _convert_video_sync "auto" ⟨some "nvenc", some "h264_nvenc", true⟩
      (fun b => if b then ⟨1, "Conversion failed!"⟩ else ⟨1, "Cannot load libnvidia-encode.so"⟩)
      false = ConvResult.ffmpegError (stderrTail "Conversion failed!") := by
  have h := nvenc_retry_once "auto" ⟨some "nvenc", some "h264_nvenc", true⟩
    (fun b => if b then ⟨1, "Conversion failed!"⟩ else ⟨1, "Cannot load libnvidia-encode.so"⟩)
    (by decide) (by decide) (by decide)
  rw [h.1, h.2.2.2 (by decide)]
  rfl

/-- **C4** counterexample: a listing that advertises only `h264_vaapi` makes
the detector report VAAPI as available while the functional test command was
never attempted — an encoder is reported available on the strength of the
advertised listing alone. -/
theorem vaapi_advertised_trusted_counterexample :
    (_detect_hardware_acceleration "h264_vaapi" none).1 =
        ⟨some "vaapi", some "h264_vaapi", true⟩ ∧
      (_detect_hardware_acceleration "h264_vaapi" none).2 = false := by
  constructor <;> decide

/-- **C4** (amended): the functional one-frame test is attempted exactly when
an NVENC encoder is advertised; NVENC is reported only when that test was
attempted and accepted; VAAPI and VideoToolbox are reported available from
the advertised listing alone — with no NVENC encoder advertised, an
advertised `h264_vaapi` is reported available and no test was run. -/
theorem hardware_detection_testing (encs : String) (t : Option ProcResult) :
    ((_detect_hardware_acceleration encs t).2 = true ↔
      (containsSub encs "h264_nvenc" || containsSub encs "hevc_nvenc") = true) ∧
    ((_detect_hardware_acceleration encs t).1.type_ = some "nvenc" →
      (_detect_hardware_acceleration encs t).2 = true ∧ nvencTestPasses t = true) ∧
    ((containsSub encs "h264_nvenc" || containsSub encs "hevc_nvenc") = false →
      containsSub encs "h264_vaapi" = true →
      _detect_hardware_acceleration encs t =
        (⟨some "vaapi", some "h264_vaapi", true⟩, false)) := by
  cases hnv : containsSub encs "h264_nvenc" <;>
    cases hhe : containsSub encs "hevc_nvenc" <;>
    cases hpass : nvencTestPasses t <;>
    cases hva : containsSub encs "h264_vaapi" <;>
    cases hvt : containsSub encs "h264_videotoolbox" <;>
    simp_all [_detect_hardware_acceleration]

/-- Witness for the C4 amended theorem at a VAAPI-only listing. -/
theorem hardware_detection_testing_witness :
    _detect_hardware_acceleration "V..... h264_vaapi    libva H.264" none =
      (⟨some "vaapi", some "h264_vaapi", true⟩, false) :=
  (hardware_detection_testing "V..... h264_vaapi    libva H.264" none).2.2
    (by decide) (by decide)

/-- Delivery size ceiling of the standard Bot API branch (bot.py line 96). -/
def MAX_UPLOAD_SIZE : ℕ := 50 * 1024 * 1024

/-- The two facts the cleanup invariant tracks about a finished background
conversion task: whether the `(user_id, file_id)` key is still present in
`active_conversions`, and whether the temporary input file still exists.
Both hold when the task starts. -/
structure BgState where
  tableHasKey : Bool
  inputExists : Bool
deriving DecidableEq, Repr

/-- Environment of one `_convert_video_background` run (bot.py lines
980–1199): whether a step inside the `try` block raises before reaching the
branch-specific cleanup, the value returned by `convert_video_to_mp4`,
whether that output file exists, its size in bytes, whether the web-folder
copy step produced a public converted URL, and whether the module-global
`application` object is available for `send_video`. -/
structure BgEnv where
  pipelineRaises : Bool
  convertResult : Option String
  outputExists : Bool
  outputSize : ℕ
  convertedUrl : Option String
  appAvailable : Bool
deriving DecidableEq, Repr

/-- Terminal effect of `_convert_video_background` (bot.py lines 980–1199)
on the tracked cleanup state. Branches, in source order: generic exception
handler (1175–1188, removes only the table entry); oversized output
(1029–1064, deletes input and output, removes the entry, returns); link
message (1067–1076) or file send (1089–1116) followed by the shared cleanup
block (1118–1149, deletes the input and removes the entry); the early return
when `application` is unavailable (1083–1087, no cleanup); conversion
failure (1152–1174, deletes the input, removes the entry). -/
def _convert_video_background (env : BgEnv) : BgState :=
  if env.pipelineRaises then
    { tableHasKey := false, inputExists := true }
  else
    match env.convertResult, env.outputExists with
    | some _, true =>
      if env.outputSize > MAX_UPLOAD_SIZE then
        { tableHasKey := false, inputExists := false }
      else
        match env.convertedUrl with
        | some _ =>
          { tableHasKey := false, inputExists := false }
        | none =>
          if env.appAvailable then
            { tableHasKey := false, inputExists := false }
          else
            { tableHasKey := true, inputExists := true }
    | _, _ =>
      { tableHasKey := false, inputExists := false }

/-- The exit path of bot.py lines 1083–1087: conversion succeeded, output at
or under the ceiling, no public link, and the `application` object is
unavailable, so the task returns before any cleanup. -/
def earlyReturnNoApp (env : BgEnv) : Prop :=
  env.pipelineRaises = false ∧ env.convertResult.isSome = true ∧
  env.outputExists = true ∧ env.outputSize ≤ MAX_UPLOAD_SIZE ∧
  env.convertedUrl = none ∧ env.appAvailable = false

/-- **C1** counterexample: after a successful conversion at or under the
size ceiling with no public link and the `application` object unavailable,
the background task returns early (bot.py line 1087): the job key is still
in `active_conversions` and the temporary input file has not been deleted,
refuting "guaranteed on all exit paths, including the early return taken
when the application object is unavailable". -/
theorem cleanup_counterexample :
    ¬ ((_convert_video_background
          ⟨false, some "converted/f_converted.mp4", true, 1024, none, false⟩).tableHasKey = false ∧
       (_convert_video_background
          ⟨false, some "converted/f_converted.mp4", true, 1024, none, false⟩).inputExists = false) := by
  decide

/-- **C1** (amended): the job key is removed from the active-job table on
every terminal path except the early return taken when the application
object is unavailable, which skips all cleanup; the temporary input file is
deleted exactly on the non-raising, non-early-return paths — in particular
the generic exception handler removes the key but does not delete the
input file. -/
theorem cleanup_on_terminal (env : BgEnv) :
    ((_convert_video_background env).tableHasKey = false ↔ ¬ earlyReturnNoApp env) ∧
    ((_convert_video_background env).inputExists = false ↔
      ¬ earlyReturnNoApp env ∧ env.pipelineRaises = false) := by
  rcases env with ⟨pr, cr, oe, sz, cu, app⟩
  rcases lt_or_le MAX_UPLOAD_SIZE sz with hsz | hsz
  · have hsz2 : ¬ sz ≤ MAX_UPLOAD_SIZE := not_le.2 hsz
    cases pr <;> rcases cr with _ | u <;> cases oe <;> rcases cu with _ | v <;> cases app <;>
      simp_all [_convert_video_background, earlyReturnNoApp]
  · cases pr <;> rcases cr with _ | u <;> cases oe <;> rcases cu with _ | v <;> cases app <;>
      simp_all [_convert_video_background, earlyReturnNoApp, not_lt.2 hsz]

/-- Delivery strategy chosen on the success path of
`_convert_video_background` (bot.py lines 1028–1116). -/
inductive Delivery where
  | oversized (url : Option String)
  | linkMessage (url : String)
  | sendFileAttempt
  | noDelivery
deriving DecidableEq, Repr

/-- The success-path branching of bot.py lines 1028–1116: strictly oversized
output takes the link-only branch and returns (1029–1064); otherwise a link
message is sent when a converted URL exists (1067–1076); otherwise
`send_video` is attempted when the `application` object is available
(1089–1116), and nothing is delivered when it is not (1083–1087). -/
def deliveryDecision (output_size : ℕ) (converted_url : Option String)
    (appAvailable : Bool) : Delivery :=
  if output_size > MAX_UPLOAD_SIZE then Delivery.oversized converted_url
  else
    match converted_url with
    | some u => Delivery.linkMessage u
    | none => if appAvailable then Delivery.sendFileAttempt else Delivery.noDelivery

/-- Whether the chosen strategy sends the output file itself. -/
def fileSent : Delivery → Bool
  | Delivery.sendFileAttempt => true
  | _ => false

/-- Whether the chosen strategy edits the status message to report the
conversion as a success. -/
def reportsSuccess : Delivery → Bool
  | Delivery.noDelivery => false
  | _ => true

/-- **C7** counterexample: an output well under the 50 MB ceiling is not
delivered directly when a public link exists — the bot sends a link message
and not the file, refuting "if the size is at or below the ceiling ... direct
delivery is attempted". -/
theorem size_ceiling_counterexample :
    deliveryDecision 1024 (some "https://example.com/converted/f.mp4") true =
        Delivery.linkMessage "https://example.com/converted/f.mp4" ∧
      fileSent (deliveryDecision 1024 (some "https://example.com/converted/f.mp4") true) =
        false := by
  constructor <;> decide

/-- **C7** (amended): an output strictly above the 50 MB ceiling is still
reported as a success and the file itself is not sent (delivery degrades to
link-only); at or below the ceiling the oversized branch is not taken, and
direct delivery (`send_video`) is attempted exactly when no public link was
produced and the application object is available — when a converted URL
exists, a link message replaces the file even under the ceiling. -/
theorem size_ceiling_branching (size : ℕ) (url : Option String) (app : Bool) :
    (size > MAX_UPLOAD_SIZE →
      deliveryDecision size url app = Delivery.oversized url ∧
      reportsSuccess (deliveryDecision size url app) = true ∧
      fileSent (deliveryDecision size url app) = false) ∧
    (size ≤ MAX_UPLOAD_SIZE →
      (∀ u : Option String, deliveryDecision size url app ≠ Delivery.oversized u) ∧
      (fileSent (deliveryDecision size url app) = true ↔ url = none ∧ app = true)) := by
  constructor
  · intro hsz
    simp [deliveryDecision, hsz, reportsSuccess, fileSent]
  · intro hsz
    have hn : ¬ size > MAX_UPLOAD_SIZE := not_lt.2 hsz
    rcases url with _ | u <;> cases app <;>
      simp [deliveryDecision, hn, fileSent]

/-- Witness for the C7 amended theorem: one byte over the ceiling degrades to
link-only; a small output with no link and an available application object is
sent directly. -/
theorem size_ceiling_branching_witness :
    deliveryDecision 52428801 none true = Delivery.oversized none ∧
      fileSent (deliveryDecision 1024 none true) = true :=
  ⟨((size_ceiling_branching 52428801 none true).1 (by decide)).1,
   ((size_ceiling_branching 1024 none true).2 (by decide)).2.mpr ⟨rfl, rfl⟩⟩

/-- The `HH:MM:SS.frac` elapsed-time marker matched by the progress regex of
`parse_progress` (line 493); fractional seconds are kept exactly. -/
structure TimeMarker where
  hours : ℕ
  minutes : ℕ
  seconds : ℚ
deriving DecidableEq, Repr

/-- `parse_progress` (lines 490–500): the elapsed seconds encoded by a
marker, `hours * 3600 + minutes * 60 + seconds`. -/
def parse_progress (m : TimeMarker) : ℚ :=
  m.hours * 3600 + m.minutes * 60 + m.seconds

/-- One emitted progress report: logged percent, elapsed and remaining. -/
structure ProgressReport where
  percent : ℚ
  elapsed : ℚ
  remaining : ℚ
deriving DecidableEq, Repr

/-- State of the stderr reader: `last_log_time` (initially 0) and the
reports emitted so far, each stamped with its wall-clock emission time. -/
structure LogState where
  last_log_time : ℚ
  reports : List (ℚ × ProgressReport)
deriving DecidableEq, Repr

/-- Line 504: reports are rate-limited to one per 5 seconds. -/
def log_interval : ℚ := 5

/-- Body of the `read_stderr` loop (lines 508–546) for one diagnostic line,
given the wall-clock time `now` and the line's optional time marker:
progress is computed when the marker's time is truthy (nonzero) and the
duration hint is positive; the report is emitted when at least
`log_interval` wall seconds passed since the last emission or the percent
reached 99.9. -/
def processLine (duration : ℚ) (st : LogState) (now : ℚ)
    (marker : Option TimeMarker) : LogState :=
  match marker with
  | none => st
  | some m =>
    let current_time := parse_progress m
    if current_time ≠ 0 ∧ 0 < duration then
      let percent := min 100 (current_time / duration * 100)
      let remaining_time := max 0 (duration - current_time)
      if log_interval ≤ now - st.last_log_time ∨ (999 / 10 : ℚ) ≤ percent then
        { last_log_time := now,
          reports := st.reports ++ [(now, ⟨percent, current_time, remaining_time⟩)] }
      else st
    else st

/-- The `read_stderr` loop over the whole diagnostic stream, each line an
observed wall-clock time paired with its optional time marker. -/
def runLines (duration : ℚ) (st : LogState) : List (ℚ × Option TimeMarker) → LogState
  | [] => st
  | (now, mk) :: evs => runLines duration (processLine duration st now mk) evs

/-- `read_stderr` (lines 508–552) from the initial state
(`last_log_time = 0`, nothing logged). -/
def read_stderr (duration : ℚ) (events : List (ℚ × Option TimeMarker)) : LogState :=
  runLines duration ⟨0, []⟩ events

/-- One `processLine` step either leaves the state unchanged or appends
exactly one report carrying the percent/elapsed/remaining formulas, and only
when the emission condition fired. -/
theorem processLine_cases (duration : ℚ) (st : LogState) (now : ℚ)
    (mk : Option TimeMarker) :
    processLine duration st now mk = st ∨
      ∃ m, mk = some m ∧
        processLine duration st now mk =
          { last_log_time := now,
            reports := st.reports ++ [(now,
              ⟨min 100 (parse_progress m / duration * 100), parse_progress m,
               max 0 (duration - parse_progress m)⟩)] } ∧
        (log_interval ≤ now - st.last_log_time ∨
          (999 / 10 : ℚ) ≤ min 100 (parse_progress m / duration * 100)) := by
  rcases mk with _ | m
  · exact Or.inl rfl
  · by_cases hc : parse_progress m ≠ 0 ∧ 0 < duration
    · by_cases hfire : log_interval ≤ now - st.last_log_time ∨
          (999 / 10 : ℚ) ≤ min 100 (parse_progress m / duration * 100)
      · refine Or.inr ⟨m, rfl, ?_, hfire⟩
        simp only [processLine]
        rw [if_pos hc, if_pos hfire]
      · refine Or.inl ?_
        simp only [processLine]
        rw [if_pos hc, if_neg hfire]
    · refine Or.inl ?_
      simp only [processLine]
      rw [if_neg hc]

/-- The reports accumulated by the reader extend the initial ones by a block
whose elapsed times form a sublist of the parsed markers and whose entries
satisfy the percent/remaining formulas. -/
theorem runLines_reports (duration : ℚ) (events : List (ℚ × Option TimeMarker)) :
    ∀ st : LogState,
      ∃ l : List (ℚ × ProgressReport),
        (runLines duration st events).reports = st.reports ++ l ∧
          List.Sublist (l.map fun p => p.2.elapsed)
            (events.filterMap fun ev => ev.2.map parse_progress) ∧
          ∀ p ∈ l, p.2.percent = min 100 (p.2.elapsed / duration * 100) ∧
            p.2.remaining = max 0 (duration - p.2.elapsed) := by
  induction events with
  | nil =>
    intro st
    exact ⟨[], by simp [runLines], by simp, by simp⟩
  | cons ev evs ih =>
    obtain ⟨now, mk⟩ := ev
    intro st
    rcases mk with _ | m
    · obtain ⟨l, h1, h2, h3⟩ := ih st
      refine ⟨l, ?_, ?_, h3⟩
      · rw [runLines]
        simpa [processLine] using h1
      · simpa using h2
    · rcases processLine_cases duration st now (some m) with hst | ⟨m', hmk, hst, -⟩
      · obtain ⟨l, h1, h2, h3⟩ := ih st
        refine ⟨l, ?_, ?_, h3⟩
        · rw [runLines, hst]
          exact h1
        · refine h2.trans ?_
          rw [List.filterMap_cons]
          simp only [Option.map_some']
          exact List.sublist_cons_self _ _
      · obtain rfl := Option.some.inj hmk
        obtain ⟨l, h1, h2, h3⟩ := ih (processLine duration st now (some m))
        refine ⟨(now, ⟨min 100 (parse_progress m / duration * 100), parse_progress m,
            max 0 (duration - parse_progress m)⟩) :: l, ?_, ?_, ?_⟩
        · rw [runLines, h1, hst]
          simp
        · rw [List.filterMap_cons]
          simp only [Option.map_some', List.map_cons]
          exact List.Sublist.cons₂ _ h2
        · intro p hp
          rcases List.mem_cons.1 hp with rfl | hp
          · exact ⟨rfl, rfl⟩
          · exact h3 p hp

/-- Throttling invariant of the reader: among the emitted reports, any one
below the 99.9 percent threshold is at least `log_interval` wall seconds
after its predecessor. -/
theorem runLines_throttle (duration : ℚ) (events : List (ℚ × Option TimeMarker)) :
    ∀ st : LogState,
      List.Chain' (fun a b => b.2.percent < 999 / 10 → log_interval ≤ b.1 - a.1)
        st.reports →
      (∀ t ∈ st.reports.getLast?, st.last_log_time = t.1) →
      List.Chain' (fun a b => b.2.percent < 999 / 10 → log_interval ≤ b.1 - a.1)
        (runLines duration st events).reports := by
  induction events with
  | nil =>
    intro st h1 _
    simpa [runLines] using h1
  | cons ev evs ih =>
    obtain ⟨now, mk⟩ := ev
    intro st h1 h2
    rcases processLine_cases duration st now mk with hst | ⟨m, hmk, hst, hfire⟩
    · rw [runLines, hst]
      exact ih st h1 h2
    · rw [runLines, hst]
      apply ih
      · rw [List.chain'_append]
        refine ⟨h1, List.chain'_singleton _, ?_⟩
        intro x hx y hy
        simp only [List.head?_cons, Option.mem_def, Option.some.injEq] at hy
        subst hy
        intro hlt
        rcases hfire with hgap | hpct
        · have hlast := h2 x hx
          rw [← hlast]
          exact hgap
        · exact absurd hpct (not_le.2 hlt)
      · intro t ht
        rw [List.getLast?_concat] at ht
        simp only [Option.mem_def, Option.some.injEq] at ht
        subst ht
        rfl

/-- **C8**: a time marker parses to `hours·3600 + minutes·60 + seconds`
elapsed seconds; with a positive duration hint every emitted report has
percent `min(100, elapsed/duration·100)` and remaining
`max(0, duration − elapsed)`; non-decreasing elapsed markers yield
non-decreasing reported percents; and of two successive reports, one whose
percent is below 99.9 comes at least the fixed 5-second interval after its
predecessor. -/
theorem progress_reporting_correct (duration : ℚ)
    (events : List (ℚ × Option TimeMarker)) (hd : 0 < duration) :
    (∀ m : TimeMarker, parse_progress m = m.hours * 3600 + m.minutes * 60 + m.seconds) ∧
    (∀ p ∈ (read_stderr duration events).reports,
        p.2.percent = min 100 (p.2.elapsed / duration * 100) ∧
        p.2.remaining = max 0 (duration - p.2.elapsed)) ∧
    (List.Pairwise (· ≤ ·) (events.filterMap (fun ev => ev.2.map parse_progress)) →
      List.Pairwise (· ≤ ·)
        ((read_stderr duration events).reports.map (fun p => p.2.percent))) ∧
    List.Chain' (fun a b => b.2.percent < 999 / 10 → (5 : ℚ) ≤ b.1 - a.1)
      (read_stderr duration events).reports := by
  obtain ⟨l, h1, h2, h3⟩ := runLines_reports duration events ⟨0, []⟩
  have hrep : (read_stderr duration events).reports = l := by
    simpa [read_stderr] using h1
  refine ⟨fun m => rfl, ?_, ?_, ?_⟩
  · rw [hrep]
    exact h3
  · intro hmono
    rw [hrep]
    have hel : List.Pairwise (· ≤ ·) (l.map (fun p => p.2.elapsed)) :=
      hmono.sublist h2
    rw [List.pairwise_map] at hel ⊢
    refine hel.imp_of_mem ?_
    intro a b ha hb hab
    rw [(h3 a ha).1, (h3 b hb).1]
    refine min_le_min le_rfl ?_
    gcongr
  · have hthr := runLines_throttle duration events ⟨0, []⟩ (by simp) (by simp)
    simpa [read_stderr, log_interval] using hthr

/-- Witness for the C8 theorem: two marker lines against a one-second
duration hint. -/
theorem progress_reporting_correct_witness :
    List.Chain' (fun a b => b.2.percent < 999 / 10 → (5 : ℚ) ≤ b.1 - a.1)
      (read_stderr 1 [(1000, some ⟨0, 0, 1 / 2⟩), (1006, some ⟨0, 0, 1⟩)]).reports :=
  (progress_reporting_correct 1 [(1000, some ⟨0, 0, 1 / 2⟩), (1006, some ⟨0, 0, 1⟩)]
    one_pos).2.2.2

/-- Typed Python exceptions raised by `_convert_video_sync`'s error
classifier (lines 600–619). -/
inductive PyError where
  | valueError (msg : String)
  | permissionError (msg : String)
  | runtimeError (msg : String)
deriving DecidableEq, Repr

/-- Classification of an `ffmpeg.Error`'s stderr (lines 600–619): codec
problems and corrupt/missing files raise `ValueError`, permission problems
`PermissionError`, anything else `RuntimeError`; each carries the bounded
diagnostic tail (the Russian message prefixes are elided). -/
def classify_ffmpeg_error (stderr_output : String) : PyError :=
  let lower := stderr_output.toLower
  if containsSub lower "codec" then PyError.valueError (stderrTail stderr_output)
  else if containsSub lower "invalid" || containsSub lower "no such file" then
    PyError.valueError (stderrTail stderr_output)
  else if containsSub lower "permission" then
    PyError.permissionError (stderrTail stderr_output)
  else PyError.runtimeError (stderrTail stderr_output)

/-- `convert_video_to_mp4` (lines 151–188), abstracted over the observable
environment: whether the input file exists, the outcome of the synchronous
conversion run in the executor (`Except.error` for any raised pipeline
exception, including the typed ones above), and whether the output file
exists after the attempt. The Python function returns `None` (here `none`)
on a missing input (line 168), on any caught exception (lines 186–188), and
on a missing output (lines 183–184); it never lets an exception escape. -/
def convert_video_to_mp4 (file_id : String) (inputExists : Bool)
    (syncResult : Except PyError Unit) (outputExistsAfter : Bool) : Option String :=
  let output_path := "converted/" ++ file_id ++ "_converted.mp4"
  if !inputExists then none
  else
    match syncResult with
    | Except.error _ => none
    | Except.ok _ =>
      if outputExistsAfter then some output_path else none

/-- **C9**: the public entry point never raises (it is total into `Option`):
it returns either `None` or exactly `converted/{file_id}_converted.mp4`;
every raised pipeline exception — including each classified
codec/corrupt-input/permission error — is caught and collapsed to `None`;
a missing input yields `None`; and when the input exists and the attempt
raises nothing, the path is returned exactly when the output file exists
afterwards. -/
theorem convert_entry_never_raises (fid : String) (ie : Bool)
    (sr : Except PyError Unit) (oe : Bool) :
    (convert_video_to_mp4 fid ie sr oe = none ∨
      convert_video_to_mp4 fid ie sr oe =
        some ("converted/" ++ fid ++ "_converted.mp4")) ∧
    (∀ e : PyError, convert_video_to_mp4 fid ie (Except.error e) oe = none) ∧
    (∀ s : String,
      convert_video_to_mp4 fid ie (Except.error (classify_ffmpeg_error s)) oe = none) ∧
    (ie = false → convert_video_to_mp4 fid ie sr oe = none) ∧
    (ie = true → sr = Except.ok () →
      (convert_video_to_mp4 fid ie sr oe =
          some ("converted/" ++ fid ++ "_converted.mp4") ↔ oe = true)) := by
  cases ie <;> rcases sr with e | u <;> cases oe <;>
    simp [convert_video_to_mp4]

/-- Witness for the C9 theorem: existing input, clean run, existing output. -/
theorem convert_entry_never_raises_witness :
    convert_video_to_mp4 "abc" true (Except.ok ()) true =
      some ("converted/" ++ "abc" ++ "_converted.mp4") :=
  ((convert_entry_never_raises "abc" true (Except.ok ()) true).2.2.2.2 rfl rfl).mpr rfl

/-- The parameter list of `convert_video_to_mp4`
(video_converter.py line 151): exactly `input_path` and `file_id`, with no
defaults and no keyword catch-all. -/
def convert_video_to_mp4_params : List String := ["input_path", "file_id"]

/-- Python call binding against a parameter list with no defaults and no
`**kwargs`: the `npos` positional arguments fill the first parameters in
order, every keyword argument must name one of the remaining parameters and
every remaining parameter must be supplied by a keyword. A `false` result
is a `TypeError` raised at call time. -/
def bindOk (params : List String) (npos : ℕ) (kwargs : List String) : Bool :=
  decide (npos ≤ params.length) &&
    kwargs.all (fun k => (params.drop npos).contains k) &&
    (params.drop npos).all (fun p => kwargs.contains p)

/-- Observable outcome of `_convert_uploaded_video_background`
(bot.py lines 788–977). -/
inductive UploadOutcome where
  | artifactDelivered
  | conversionFailedMessage
  | genericException
deriving DecidableEq, Repr

/-- Control flow of `_convert_uploaded_video_background` around its
conversion call (bot.py lines 801–977): a failed download raises into the
generic handler; otherwise the call
`convert_video_to_mp4(file_path, temp_file_id, max_size_mb=800)` (line 835)
is bound against the callee's two-parameter signature — an unexpected
keyword raises `TypeError`, caught by the same generic handler (lines
964–977); only if the binding succeeded could the artifact/failure branches
(lines 837–963) be reached, abstracted here over the call's result. -/
def _convert_uploaded_video_background (downloadOk : Bool)
    (convResult : Option String) (outputExists : Bool) : UploadOutcome :=
  if !downloadOk then UploadOutcome.genericException
  else if bindOk convert_video_to_mp4_params 2 ["max_size_mb"] then
    match convResult, outputExists with
    | some _, true => UploadOutcome.artifactDelivered
    | _, _ => UploadOutcome.conversionFailedMessage
  else UploadOutcome.genericException

/-- **C10**: the web-upload flow's conversion call passes the unexpected
keyword `max_size_mb` to the two-parameter `convert_video_to_mp4`, so the
call binding fails (`TypeError`); consequently, for every download outcome
and every hypothetical conversion result, the uploaded-video background
task never delivers an artifact and always terminates in its generic
exception branch. -/
theorem uploaded_video_type_error (d : Bool) (cr : Option String) (oe : Bool) :
    bindOk convert_video_to_mp4_params 2 ["max_size_mb"] = false ∧
    _convert_uploaded_video_background d cr oe = UploadOutcome.genericException := by
  have hb : bindOk convert_video_to_mp4_params 2 ["max_size_mb"] = false := by decide
  refine ⟨hb, ?_⟩
  cases d <;> simp [_convert_uploaded_video_background, hb]
